import Mathlib

/-!
Verification of `lab04/scripts/processes.py` and `lab04/scripts/env_sim.py`.

The Python classes are shallowly embedded as Lean structures with explicit
state passing.  Random draws (`poisson`, `random`, `randn`) are modelled as
parameters of the `step` functions, so theorems quantify over every possible
outcome of the draws.  Python `int` becomes `Int`, `float` values that the
claims compare exactly become `Int` or a type parameter `α`, and probability
values compared against `random()` become `ℚ`.  List indexing that can raise
`IndexError` in Python is modelled with `Option`.
-/

namespace Lab04

/-! ### processes.py -/

/-- State of `BirthDeathProcess` (processes.py, lines 31-56): the current
integer value and the upper limit (`limit = 0` means unbounded above).
The birth and death rates come from other processes; each `step()` draws
Poisson counts from them, so the embedding takes the drawn counts as
parameters. -/
structure BirthDeathProcess where
  value : Int
  limit : Int
deriving DecidableEq

/-- One `step()` of `BirthDeathProcess` (lines 44-53), with the Poisson draws
`nBirth` and `nDeath` (nonnegative integers) as parameters: add the births,
clamp to `limit` when `limit > 0`, then subtract the deaths with a floor
of `0`. -/
def BirthDeathProcess.step (s : BirthDeathProcess) (nBirth nDeath : Nat) :
    BirthDeathProcess :=
  let v1 := s.value + (nBirth : Int)
  let v2 := if s.limit > 0 then min s.limit v1 else v1
  ⟨max 0 (v2 - (nDeath : Int)), s.limit⟩

/-- `get()` of `BirthDeathProcess` (lines 55-56). -/
def BirthDeathProcess.get (s : BirthDeathProcess) : Int :=
  s.value

/-- Run a sequence of `step()` calls, one pair of Poisson draws per step. -/
def BirthDeathProcess.run (s : BirthDeathProcess) :
    List (Nat × Nat) → BirthDeathProcess
  | [] => s
  | (nb, nd) :: rest => (s.step nb nd).run rest

/-- State of `OnOffProcess` (processes.py, lines 158-177): `value` starts
at `0`. -/
structure OnOffProcess where
  value : Int
deriving DecidableEq

/-- The constructor of `OnOffProcess` (lines 159-166) sets `value = 0`. -/
def OnOffProcess.init : OnOffProcess := ⟨0⟩

/-- One `step()` of `OnOffProcess` (lines 168-174), with the uniform draw `r`
and the current readings of the two probability processes as parameters. -/
def OnOffProcess.step (s : OnOffProcess) (r off_to_on on_to_off : ℚ) :
    OnOffProcess :=
  if s.value = 0 then
    if r < off_to_on then ⟨1⟩ else s
  else
    if r < on_to_off then ⟨0⟩ else s

/-- `get()` of `OnOffProcess` (lines 176-177). -/
def OnOffProcess.get (s : OnOffProcess) : Int :=
  s.value

/-- Run a sequence of `step()` calls of `OnOffProcess`; each list entry holds
the uniform draw and the readings of the two probability processes for that
step. -/
def OnOffProcess.run (s : OnOffProcess) :
    List (ℚ × ℚ × ℚ) → OnOffProcess
  | [] => s
  | (r, p1, p2) :: rest => (s.step r p1 p2).run rest

variable {α : Type}

/-- State of `PwConstantProcess` (processes.py, lines 72-101): a piecewise
constant process given by the lengths and values of its constant phases.
`t` and `phase` are the tick-within-phase counter and the phase index; the
type of the stored values is a parameter `α`. -/
structure PwConstantProcess (α : Type) where
  phase_lengths : List Int
  values : List α
  seasonal : Bool
  t : Int
  phase : Nat
  value : α
deriving DecidableEq

/-- The constructor of `PwConstantProcess` (lines 79-85): it reads
`values[0]`, which raises `IndexError` on an empty list, hence `Option`. -/
def PwConstantProcess.mk? (phase_lengths : List Int) (values : List α)
    (seasonal : Bool) : Option (PwConstantProcess α) :=
  (values[0]?).map fun v => ⟨phase_lengths, values, seasonal, 0, 0, v⟩

/-- The phase index selected by `step()` when a phase ends (lines 90-96):
increment the phase, then wrap to `0` when `seasonal` holds and the new index
is past the last index of `values` (the code compares against
`len(self.values) - 1`). -/
def PwConstantProcess.nextPhase (s : PwConstantProcess α) : Nat :=
  if s.seasonal = true ∧ ((s.phase + 1 : Nat) : Int) > (s.values.length : Int) - 1
  then 0 else s.phase + 1

/-- One `step()` of `PwConstantProcess` (lines 87-98): increment `t`; when it
exceeds the current phase length, move to `nextPhase` with `t = 0` and load
that phase's value.  Both list reads (`phase_lengths[phase]` and
`values[phase]`) can raise `IndexError` in Python, modelled by `none`. -/
def PwConstantProcess.step (s : PwConstantProcess α) :
    Option (PwConstantProcess α) :=
  (s.phase_lengths[s.phase]?).bind fun len =>
    if s.t + 1 > len then
      (s.values[s.nextPhase]?).map fun v =>
        ⟨s.phase_lengths, s.values, s.seasonal, 0, s.nextPhase, v⟩
    else
      some ⟨s.phase_lengths, s.values, s.seasonal, s.t + 1, s.phase, s.value⟩

/-- `get()` of `PwConstantProcess` (lines 100-101). -/
def PwConstantProcess.get (s : PwConstantProcess α) : α :=
  s.value

/-- `n` consecutive `step()` calls, propagating an `IndexError`. -/
def PwConstantProcess.stepN :
    Nat → PwConstantProcess α → Option (PwConstantProcess α)
  | 0, s => some s
  | n + 1, s => s.step.bind (PwConstantProcess.stepN n)

/-! ### env_sim.py -/

variable {σ : Type}

/-- State of `BasicDevice` (env_sim.py, lines 37-60).  `measurement.get()`
computes `distortion(process.get())`, a fresh float at every call (the
distortion may be random), so the embedding passes each call's sample as a
parameter; it never yields Python `None`, so samples are plain `α` while the
device's stored `value` is `Option α` (absent readings are `None`). -/
structure BasicDevice (α : Type) where
  name : String
  p_skip : ℚ
  value : Option α
  influx_meas : String
  tags : List (String × String)
deriving DecidableEq

/-- The constructor of `BasicDevice` (lines 38-45): it stores a fresh sample
`m0 = measurement.get()`, so the initial reading is present. -/
def BasicDevice.init (name : String) (m0 : α) (p_skip : ℚ)
    (influx_meas : String) (tags : List (String × String)) : BasicDevice α :=
  ⟨name, p_skip, some m0, influx_meas, tags⟩

/-- One `step()` of `BasicDevice` (lines 47-51), with the uniform draw `r`
and the samples `m1`, `m2` of the two possible `measurement.get()` calls as
parameters.  Line 49's store (`v1`, taken when `p_skip == 0`) is dead: lines
50-51 always overwrite `value` — `None` when `r < p_skip`, else a fresh
sample. -/
def BasicDevice.step (d : BasicDevice α) (r : ℚ) (m1 m2 : α) :
    BasicDevice α :=
  let v1 : Option α := if d.p_skip = 0 then some m1 else d.value
  ⟨d.name, d.p_skip, if r < d.p_skip then none else some m2,
    d.influx_meas, d.tags⟩

/-- `get()` of `BasicDevice` (lines 53-54). -/
def BasicDevice.get (d : BasicDevice α) : Option α :=
  d.value

/-- `get_influx_meas()` of `BasicDevice` (lines 56-57). -/
def BasicDevice.get_influx_meas (d : BasicDevice α) : String :=
  d.influx_meas

/-- `get_tags()` of `BasicDevice` (lines 59-60). -/
def BasicDevice.get_tags (d : BasicDevice α) : List (String × String) :=
  d.tags

/-- A sequence of `step()` calls of `BasicDevice`; each list entry holds the
uniform draw and the two measurement samples for that step. -/
def BasicDevice.run (d : BasicDevice α) : List (ℚ × α × α) → BasicDevice α
  | [] => d
  | (r, m1, m2) :: rest => (d.step r m1 m2).run rest

/-- State of `DoomedDevice` (env_sim.py, lines 63-81): a decorator around a
base device of state type `σ` with a remaining-lifetime counter.  The base
device's `step` and `get` are passed as functions. -/
structure DoomedDevice (σ : Type) where
  base : σ
  time_remaining : Int

/-- One `step()` of `DoomedDevice` (lines 69-72): step the base device
first, then decrement the counter when it is still positive. -/
def DoomedDevice.step (stepB : σ → σ) (d : DoomedDevice σ) :
    DoomedDevice σ :=
  ⟨stepB d.base,
    if d.time_remaining > 0 then d.time_remaining - 1 else d.time_remaining⟩

/-- `get()` of `DoomedDevice` (lines 74-75): `None` once the counter is
`0`, otherwise the base device's reading. -/
def DoomedDevice.get (getB : σ → Option α) (d : DoomedDevice σ) : Option α :=
  if d.time_remaining = 0 then none else getB d.base

/-- `n` consecutive `step()` calls of `DoomedDevice`. -/
def DoomedDevice.run (stepB : σ → σ) :
    Nat → DoomedDevice σ → DoomedDevice σ
  | 0, d => d
  | n + 1, d => DoomedDevice.run stepB n (d.step stepB)

/-- State of `StickyDevice` (env_sim.py, lines 84-104): a decorator around a
base device with a remaining-lifetime counter and a cached value. -/
structure StickyDevice (σ α : Type) where
  base : σ
  time_remaining : Int
  value : Option α
deriving DecidableEq

/-- The constructor of `StickyDevice` (lines 85-89): caches the base
device's current reading. -/
def StickyDevice.init (getB : σ → Option α) (b0 : σ) (lifetime : Int) :
    StickyDevice σ α :=
  ⟨b0, lifetime, getB b0⟩

/-- One `step()` of `StickyDevice` (lines 91-95): step the base device
first; while the counter is positive, decrement it and refresh the cached
value from the base device, otherwise keep the cache frozen. -/
def StickyDevice.step (stepB : σ → σ) (getB : σ → Option α)
    (d : StickyDevice σ α) : StickyDevice σ α :=
  if d.time_remaining > 0 then
    ⟨stepB d.base, d.time_remaining - 1, getB (stepB d.base)⟩
  else
    ⟨stepB d.base, d.time_remaining, d.value⟩

/-- `get()` of `StickyDevice` (lines 97-98). -/
def StickyDevice.get (d : StickyDevice σ α) : Option α :=
  d.value

/-- `n` consecutive `step()` calls of `StickyDevice`. -/
def StickyDevice.run (stepB : σ → σ) (getB : σ → Option α) :
    Nat → StickyDevice σ α → StickyDevice σ α
  | 0, d => d
  | n + 1, d => StickyDevice.run stepB getB n (d.step stepB getB)

/-- A concrete base-device step used to realise "a wrapped device whose
successive readings are the distinct values 1.0, 2.0, 3.0, 4.0": the base
state is a tick counter. -/
def natStep : Nat → Nat :=
  fun k => k + 1

/-- The concrete base-device `get`: at tick `k` the reading is `k + 1`,
giving the successive readings 1, 2, 3, 4, always present. -/
def natReadings : Nat → Option Int :=
  fun k => some ((k : Int) + 1)

/-- The observable snapshot of a `Device` that the `Environment` sinks
consume (env_sim.py, lines 142-167): `get()`, `get_influx_meas()` and
`get_tags()`. -/
structure DeviceReading (α : Type) where
  value : Option α
  influx_meas : String
  tags : List (String × String)
deriving DecidableEq

/-- The `DeviceReading` snapshot of a `BasicDevice`. -/
def BasicDevice.reading (d : BasicDevice α) : DeviceReading α :=
  ⟨d.get, d.get_influx_meas, d.get_tags⟩

/-- `Environment.write_device` (env_sim.py, lines 142-150): the point
forwarded to the live influx sink for one device in one tick — `none` when
the device's value is absent (the early `return`), otherwise the
measurement name, value and tags. -/
def write_device (d : DeviceReading α) :
    Option (String × α × List (String × String)) :=
  match d.value with
  | none => none
  | some v => some (d.influx_meas, v, d.tags)

/-- One tick of the live-sink loop of `Environment.run_influx` (lines
136-138): every device is stepped and `write_device` forwards the present
readings. -/
def sink_tick (ds : List (DeviceReading α)) :
    List (String × α × List (String × String)) :=
  ds.filterMap write_device

/-- The CSV record `Environment.generate_data` writes for one device in one
tick (lines 161-166): it interpolates `d.get()` into the line
unconditionally, so the record carries the optional value. -/
def generate_line (d : DeviceReading α) :
    String × Option α × List (String × String) :=
  (d.influx_meas, d.value, d.tags)

/-- One tick of the batch generate-to-file mode (lines 158-166): one record
per device, whether or not its value is absent. -/
def generate_tick (ds : List (DeviceReading α)) :
    List (String × Option α × List (String × String)) :=
  ds.map generate_line

/-! ### Lemmas about PwConstantProcess -/

lemma PwConstantProcess.stepN_add (m n : Nat) (s : PwConstantProcess α) :
    PwConstantProcess.stepN (m + n) s =
      (PwConstantProcess.stepN m s).bind (PwConstantProcess.stepN n) := by
  induction m generalizing s with
  | zero => simp [PwConstantProcess.stepN]
  | succ m ih =>
    have h : m + 1 + n = (m + n) + 1 := by omega
    rw [h]
    cases hs : s.step with
    | none => simp [PwConstantProcess.stepN, hs]
    | some s2 => simp [PwConstantProcess.stepN, hs, ih]

lemma PwConstantProcess.stepN_one (s : PwConstantProcess α) :
    PwConstantProcess.stepN 1 s = s.step := by
  cases hs : s.step <;> simp [PwConstantProcess.stepN, hs]

lemma PwConstantProcess.stepN_succ (n : Nat) (s : PwConstantProcess α) :
    PwConstantProcess.stepN (n + 1) s =
      (PwConstantProcess.stepN n s).bind PwConstantProcess.step := by
  rw [PwConstantProcess.stepN_add n 1]
  cases hm : PwConstantProcess.stepN n s <;>
    simp [PwConstantProcess.stepN_one]

lemma PwConstantProcess.step_stay (s : PwConstantProcess α) (len : Int)
    (h : s.phase_lengths[s.phase]? = some len) (hle : s.t + 1 ≤ len) :
    s.step = some ⟨s.phase_lengths, s.values, s.seasonal, s.t + 1,
      s.phase, s.value⟩ := by
  unfold PwConstantProcess.step
  rw [h]
  simp [not_lt.mpr hle]

lemma PwConstantProcess.step_advance (s : PwConstantProcess α) (len : Int)
    (h : s.phase_lengths[s.phase]? = some len) (hgt : len < s.t + 1)
    (v : α) (hv : s.values[s.nextPhase]? = some v) :
    s.step = some ⟨s.phase_lengths, s.values, s.seasonal, 0,
      s.nextPhase, v⟩ := by
  unfold PwConstantProcess.step
  rw [h]
  simp [hgt, hv]

lemma PwConstantProcess.hold_aux (L : List Int) (V : List α) (p : Nat)
    (vp : α) (lp : Int) (hlp : L[p]? = some lp) :
    ∀ i : Nat, (i : Int) ≤ lp →
      PwConstantProcess.stepN i ⟨L, V, true, 0, p, vp⟩ =
        some ⟨L, V, true, (i : Int), p, vp⟩ := by
  intro i
  induction i with
  | zero => intro _; simp [PwConstantProcess.stepN]
  | succ i ih =>
    intro h
    have hcast : ((i + 1 : Nat) : Int) = (i : Int) + 1 := by push_cast; ring
    have hi : (i : Int) ≤ lp := by rw [hcast] at h; omega
    have hle : (i : Int) + 1 ≤ lp := by rw [hcast] at h; omega
    rw [PwConstantProcess.stepN_succ, ih hi, Option.some_bind,
      PwConstantProcess.step_stay _ lp hlp hle, hcast]

/-! ### Lemmas about BirthDeathProcess -/

lemma BirthDeathProcess.step_limit (s : BirthDeathProcess)
    (nb nd : Nat) : (s.step nb nd).limit = s.limit := rfl

lemma BirthDeathProcess.step_bounds (s : BirthDeathProcess)
    (nb nd : Nat) (hL : 0 < s.limit) :
    0 ≤ (s.step nb nd).value ∧ (s.step nb nd).value ≤ s.limit := by
  unfold BirthDeathProcess.step
  constructor
  · exact le_max_left 0 _
  · simp only [if_pos hL]
    have h1 : min s.limit (s.value + (nb : Int)) - (nd : Int) ≤ s.limit := by
      have := min_le_left s.limit (s.value + (nb : Int))
      omega
    exact max_le (le_of_lt hL) h1

/-! ### Lemmas about OnOffProcess -/

lemma OnOffProcess.step_zero_or_one (s : OnOffProcess)
    (r p1 p2 : ℚ) (h : s.value = 0 ∨ s.value = 1) :
    (s.step r p1 p2).value = 0 ∨ (s.step r p1 p2).value = 1 := by
  unfold OnOffProcess.step
  rcases h with h | h
  · rw [if_pos h]
    by_cases hr : r < p1
    · rw [if_pos hr]; exact Or.inr rfl
    · rw [if_neg hr]; exact Or.inl h
  · have hne : ¬ s.value = 0 := by rw [h]; decide
    rw [if_neg hne]
    by_cases hr : r < p2
    · rw [if_pos hr]; exact Or.inl rfl
    · rw [if_neg hr]; exact Or.inr h

lemma OnOffProcess.run_zero_or_one (s : OnOffProcess)
    (draws : List (ℚ × ℚ × ℚ)) (h : s.value = 0 ∨ s.value = 1) :
    (s.run draws).value = 0 ∨ (s.run draws).value = 1 := by
  induction draws generalizing s with
  | nil => exact h
  | cons d rest ih =>
    obtain ⟨r, p1, p2⟩ := d
    exact ih _ (s.step_zero_or_one r p1 p2 h)

/-! ### Claim theorems: C2, C3, C4 -/

/-- C2, counterexample to the claim as stated: for
`PwConstantProcess([1, 1], [10, 20], seasonal=True)` the claim says `get()`
returns `values[0] = 10` for exactly `phaseLengths[0] = 1` tick, so tick `1`
would already read `values[1] = 20`; the code still reads `10` at tick `1`. -/
theorem pwConstant_exact_length_cex :
    ((PwConstantProcess.stepN 1 ⟨[1, 1], [(10 : Int), 20], true, 0, 0, 10⟩).map
        PwConstantProcess.get = some 10) ∧
      ¬ ((PwConstantProcess.stepN 1
          ⟨[1, 1], [(10 : Int), 20], true, 0, 0, 10⟩).map
            PwConstantProcess.get = some 20) := by
  decide

/-- C2, amended: a seasonal `PwConstantProcess` that starts phase `p` holds
`values[p]` with the phase unchanged for ticks `0 .. phaseLengths[p]`, i.e.
for `phaseLengths[p] + 1` consecutive ticks, and on tick
`phaseLengths[p] + 1` it moves to the start of the next phase — index
`p + 1`, wrapping to `0` when `p` was the last index of `values`. -/
theorem pwConstant_phase_holds_plus_one (L : List Int) (V : List α) (p : Nat)
    (vp : α) (lp : Int) (hvp : V[p]? = some vp) (hlp : L[p]? = some lp)
    (hnn : 0 ≤ lp) :
    (∀ i : Nat, (i : Int) ≤ lp →
        PwConstantProcess.stepN i ⟨L, V, true, 0, p, vp⟩ =
          some ⟨L, V, true, (i : Int), p, vp⟩) ∧
      ∃ p2 v2,
        ((p + 1 = V.length ∧ p2 = 0) ∨ (p + 1 < V.length ∧ p2 = p + 1)) ∧
          V[p2]? = some v2 ∧
          PwConstantProcess.stepN (lp.toNat + 1) ⟨L, V, true, 0, p, vp⟩ =
            some ⟨L, V, true, 0, p2, v2⟩ := by
  have hpV : p < V.length := (List.getElem?_eq_some_iff.mp hvp).1
  refine ⟨PwConstantProcess.hold_aux L V p vp lp hlp, ?_⟩
  have hstep_at := PwConstantProcess.hold_aux L V p vp lp hlp lp.toNat
    (le_of_eq (Int.toNat_of_nonneg hnn))
  rw [Int.toNat_of_nonneg hnn] at hstep_at
  have hgt2 : lp < (⟨L, V, true, lp, p, vp⟩ : PwConstantProcess α).t + 1 := by
    show lp < lp + 1; omega
  by_cases hcase : p + 1 = V.length
  · have h0len : 0 < V.length := by omega
    have hcast : ((p + 1 : Nat) : Int) = (V.length : Int) := by
      exact_mod_cast congrArg Nat.cast hcase
    have hgtc : ((p + 1 : Nat) : Int) > (V.length : Int) - 1 := by omega
    have hnp : PwConstantProcess.nextPhase
        (⟨L, V, true, lp, p, vp⟩ : PwConstantProcess α) = 0 := by
      unfold PwConstantProcess.nextPhase
      exact if_pos ⟨rfl, hgtc⟩
    have hv0 : V[0]? = some V[0] := List.getElem?_eq_getElem h0len
    have hvnp : (⟨L, V, true, lp, p, vp⟩ : PwConstantProcess α).values[
        (⟨L, V, true, lp, p, vp⟩ : PwConstantProcess α).nextPhase]? =
          some V[0] := by
      show V[(PwConstantProcess.nextPhase
        (⟨L, V, true, lp, p, vp⟩ : PwConstantProcess α))]? = some V[0]
      rw [hnp]
      exact hv0
    refine ⟨0, V[0], Or.inl ⟨hcase, rfl⟩, hv0, ?_⟩
    rw [PwConstantProcess.stepN_succ, hstep_at, Option.some_bind,
      PwConstantProcess.step_advance _ lp hlp hgt2 _ hvnp, hnp]
  · have hlt : p + 1 < V.length := by omega
    have hcast : ((p + 1 : Nat) : Int) < (V.length : Int) := by
      exact_mod_cast hlt
    have hnotc : ¬ ((true = true) ∧
        ((p + 1 : Nat) : Int) > ((V.length : Int) - 1)) := by
      rintro ⟨-, hgt⟩
      omega
    have hnp : PwConstantProcess.nextPhase
        (⟨L, V, true, lp, p, vp⟩ : PwConstantProcess α) = p + 1 := by
      unfold PwConstantProcess.nextPhase
      exact if_neg hnotc
    have hv1 : V[p + 1]? = some V[p + 1] := List.getElem?_eq_getElem hlt
    have hvnp : (⟨L, V, true, lp, p, vp⟩ : PwConstantProcess α).values[
        (⟨L, V, true, lp, p, vp⟩ : PwConstantProcess α).nextPhase]? =
          some V[p + 1] := by
      show V[(PwConstantProcess.nextPhase
        (⟨L, V, true, lp, p, vp⟩ : PwConstantProcess α))]? = some V[p + 1]
      rw [hnp]
      exact hv1
    refine ⟨p + 1, V[p + 1], Or.inr ⟨hlt, rfl⟩, hv1, ?_⟩
    rw [PwConstantProcess.stepN_succ, hstep_at, Option.some_bind,
      PwConstantProcess.step_advance _ lp hlp hgt2 _ hvnp, hnp]

/-- Witness for the amended C2 at `PwConstantProcess([1, 1], [10, 20],
seasonal=True)`, phase `0`: after `phaseLengths[0] = 1` steps the process is
still in phase `0` at value `10`. -/
theorem pwConstant_phase_holds_plus_one_witness :
    PwConstantProcess.stepN 1 ⟨[1, 1], [(10 : Int), 20], true, 0, 0, 10⟩ =
      some ⟨[1, 1], [(10 : Int), 20], true, 1, 0, 10⟩ := by
  have h := (pwConstant_phase_holds_plus_one [1, 1] [(10 : Int), 20] 0 10 1
    rfl rfl (by decide)).1 1 (by decide)
  exact_mod_cast h

/-- C3: `PwConstantProcess([3, 2], [10, 20], seasonal=True)` — built by the
constructor from those arguments — reads `10` at ticks 0 through 3, advances
per the schedule (`20` at ticks 4 through 6), returns to `10` when the cycle
completes at tick 7, and the whole value sequence is periodic with the cycle
length 7, which covers every further full cycle. -/
theorem pwConstant_seasonal_cycle :
    PwConstantProcess.mk? [3, 2] [(10 : Int), 20] true =
        some ⟨[3, 2], [(10 : Int), 20], true, 0, 0, 10⟩ ∧
      ((PwConstantProcess.stepN 0
        ⟨[3, 2], [(10 : Int), 20], true, 0, 0, 10⟩).map
          PwConstantProcess.get = some 10) ∧
      ((PwConstantProcess.stepN 1
        ⟨[3, 2], [(10 : Int), 20], true, 0, 0, 10⟩).map
          PwConstantProcess.get = some 10) ∧
      ((PwConstantProcess.stepN 2
        ⟨[3, 2], [(10 : Int), 20], true, 0, 0, 10⟩).map
          PwConstantProcess.get = some 10) ∧
      ((PwConstantProcess.stepN 3
        ⟨[3, 2], [(10 : Int), 20], true, 0, 0, 10⟩).map
          PwConstantProcess.get = some 10) ∧
      ((PwConstantProcess.stepN 4
        ⟨[3, 2], [(10 : Int), 20], true, 0, 0, 10⟩).map
          PwConstantProcess.get = some 20) ∧
      ((PwConstantProcess.stepN 6
        ⟨[3, 2], [(10 : Int), 20], true, 0, 0, 10⟩).map
          PwConstantProcess.get = some 20) ∧
      ((PwConstantProcess.stepN 7
        ⟨[3, 2], [(10 : Int), 20], true, 0, 0, 10⟩).map
          PwConstantProcess.get = some 10) ∧
      ((PwConstantProcess.stepN 10
        ⟨[3, 2], [(10 : Int), 20], true, 0, 0, 10⟩).map
          PwConstantProcess.get = some 10) ∧
      ((PwConstantProcess.stepN 13
        ⟨[3, 2], [(10 : Int), 20], true, 0, 0, 10⟩).map
          PwConstantProcess.get = some 20) ∧
      ((PwConstantProcess.stepN 14
        ⟨[3, 2], [(10 : Int), 20], true, 0, 0, 10⟩).map
          PwConstantProcess.get = some 10) ∧
      ∀ k : Nat,
        PwConstantProcess.stepN (7 + k)
            ⟨[3, 2], [(10 : Int), 20], true, 0, 0, 10⟩ =
          PwConstantProcess.stepN k
            ⟨[3, 2], [(10 : Int), 20], true, 0, 0, 10⟩ := by
  have h7 : PwConstantProcess.stepN 7
      ⟨[3, 2], [(10 : Int), 20], true, 0, 0, 10⟩ =
        some ⟨[3, 2], [(10 : Int), 20], true, 0, 0, 10⟩ := by decide
  refine ⟨by decide, by decide, by decide, by decide, by decide, by decide,
    by decide, by decide, by decide, by decide, by decide, ?_⟩
  intro k
  rw [PwConstantProcess.stepN_add 7 k, h7, Option.some_bind]

/-- C4: the claim (and the class docstring, line 76) says a non-seasonal
`PwConstantProcess` keeps succeeding and holds the last value once the
phases are exhausted; the code instead hits the unimplemented TODO branch
(line 93) and reads `values[phase]` out of range.  For
`PwConstantProcess([1], [10], seasonal=False)` the first `step()` succeeds
with value `10`, and the second `step()` raises `IndexError`
(`values[1]`). -/
theorem pwConstant_nonseasonal_crash :
    PwConstantProcess.mk? [1] [(10 : Int)] false =
        some ⟨[1], [(10 : Int)], false, 0, 0, 10⟩ ∧
      ((PwConstantProcess.stepN 1
        ⟨[1], [(10 : Int)], false, 0, 0, 10⟩).map
          PwConstantProcess.get = some 10) ∧
      PwConstantProcess.stepN 2 ⟨[1], [(10 : Int)], false, 0, 0, 10⟩ =
        none := by
  decide

/-! ### Claim theorems: C1 and C10 -/

lemma BirthDeathProcess.run_bounds (s : BirthDeathProcess)
    (draws : List (Nat × Nat)) (hL : 0 < s.limit)
    (h0 : 0 ≤ s.value) (h1 : s.value ≤ s.limit) :
    0 ≤ (s.run draws).get ∧ (s.run draws).get ≤ s.limit := by
  induction draws generalizing s with
  | nil => exact ⟨h0, h1⟩
  | cons d rest ih =>
    obtain ⟨nb, nd⟩ := d
    have hstep := s.step_bounds nb nd hL
    have hlim := s.step_limit nb nd
    have h2 : (s.step nb nd).value ≤ (s.step nb nd).limit := by
      rw [hlim]; exact hstep.2
    have h3 : 0 < (s.step nb nd).limit := by rw [hlim]; exact hL
    have h4 := ih (s.step nb nd) h3 hstep.1 h2
    rw [hlim] at h4
    exact h4

/-- C1: for every `BirthDeathProcess` with `limit = L > 0`, after any
sequence of `step()` calls — for every outcome of each step's Poisson
draws — `get()` returns a value `v` with `0 ≤ v ≤ L`.  The start value is
in range either because the construction put it there (the default is
`init = 0`), or because at least one step has clamped it: the disjunctive
hypothesis covers both. -/
theorem birthDeath_bounded (s : BirthDeathProcess)
    (draws : List (Nat × Nat)) (hL : 0 < s.limit)
    (h : (0 ≤ s.value ∧ s.value ≤ s.limit) ∨ draws ≠ []) :
    0 ≤ (s.run draws).get ∧ (s.run draws).get ≤ s.limit := by
  cases draws with
  | nil =>
    rcases h with ⟨h0, h1⟩ | hne
    · exact s.run_bounds [] hL h0 h1
    · exact absurd rfl hne
  | cons d rest =>
    obtain ⟨nb, nd⟩ := d
    have hstep := s.step_bounds nb nd hL
    have hlim := s.step_limit nb nd
    have h2 : (s.step nb nd).value ≤ (s.step nb nd).limit := by
      rw [hlim]; exact hstep.2
    have h3 : 0 < (s.step nb nd).limit := by rw [hlim]; exact hL
    have h4 := (s.step nb nd).run_bounds rest h3 hstep.1 h2
    rw [hlim] at h4
    exact h4

/-- Witness for C1: a concrete process with `limit = 5` starting at `0`,
stepped with draws `(nBirth, nDeath) = (7, 2)` then `(0, 9)`. -/
theorem birthDeath_bounded_witness :
    0 ≤ (BirthDeathProcess.run ⟨0, 5⟩ [(7, 2), (0, 9)]).get ∧
      (BirthDeathProcess.run ⟨0, 5⟩ [(7, 2), (0, 9)]).get ≤ 5 :=
  birthDeath_bounded ⟨0, 5⟩ [(7, 2), (0, 9)] (by decide)
    (Or.inl (by constructor <;> decide))

/-- C10: for every `OnOffProcess`, the initial value is `0`, and after any
sequence of `step()` calls — for every outcome of the uniform draws and every
reading of the two probability processes — `get()` returns either `0` or
`1`, never any other value. -/
theorem onOff_zero_or_one :
    OnOffProcess.init.get = 0 ∧
      ∀ draws : List (ℚ × ℚ × ℚ),
        (OnOffProcess.init.run draws).get = 0 ∨
          (OnOffProcess.init.run draws).get = 1 :=
  ⟨rfl, fun draws =>
    OnOffProcess.run_zero_or_one OnOffProcess.init draws (Or.inl rfl)⟩

/-! ### Lemmas about the devices -/

lemma BasicDevice.step_p_skip (d : BasicDevice α) (r : ℚ) (m1 m2 : α) :
    (d.step r m1 m2).p_skip = d.p_skip := rfl

lemma BasicDevice.step_skip_value (d : BasicDevice α) (r : ℚ) (m1 m2 : α)
    (hp : d.p_skip = 1) (hr : r < 1) : (d.step r m1 m2).value = none := by
  simp [BasicDevice.step, hp, hr]

lemma DoomedDevice.run_add_doomed (stepB : σ → σ) (m n : Nat) (d : DoomedDevice σ) :
    DoomedDevice.run stepB (m + n) d =
      DoomedDevice.run stepB n (DoomedDevice.run stepB m d) := by
  induction m generalizing d with
  | zero =>
    rw [Nat.zero_add]
    rfl
  | succ m ih =>
    have e : m + 1 + n = (m + n) + 1 := by omega
    rw [e]
    show DoomedDevice.run stepB (m + n) (d.step stepB) = _
    rw [ih]
    rfl

lemma DoomedDevice.run_tr_zero (stepB : σ → σ) :
    ∀ (n : Nat) (d : DoomedDevice σ), d.time_remaining = 0 →
      (DoomedDevice.run stepB n d).time_remaining = 0 := by
  intro n
  induction n with
  | zero => intro d h; exact h
  | succ n ih =>
    intro d h
    show (DoomedDevice.run stepB n (d.step stepB)).time_remaining = 0
    apply ih
    show (if d.time_remaining > 0
      then d.time_remaining - 1 else d.time_remaining) = 0
    rw [h]
    norm_num

lemma StickyDevice.step_base (stepB : σ → σ) (getB : σ → Option α)
    (d : StickyDevice σ α) : (d.step stepB getB).base = stepB d.base := by
  unfold StickyDevice.step
  split <;> rfl

lemma StickyDevice.run_add_sticky (stepB : σ → σ) (getB : σ → Option α)
    (m n : Nat) (d : StickyDevice σ α) :
    StickyDevice.run stepB getB (m + n) d =
      StickyDevice.run stepB getB n (StickyDevice.run stepB getB m d) := by
  induction m generalizing d with
  | zero =>
    rw [Nat.zero_add]
    rfl
  | succ m ih =>
    have e : m + 1 + n = (m + n) + 1 := by omega
    rw [e]
    show StickyDevice.run stepB getB (m + n) (d.step stepB getB) = _
    rw [ih]
    rfl

lemma StickyDevice.run_base_natStep :
    ∀ (k : Nat) (d : StickyDevice Nat Int),
      (StickyDevice.run natStep natReadings k d).base = d.base + k := by
  intro k
  induction k with
  | zero => intro d; rfl
  | succ k ih =>
    intro d
    show (StickyDevice.run natStep natReadings k
      (d.step natStep natReadings)).base = d.base + (k + 1)
    rw [ih, StickyDevice.step_base]
    show d.base + 1 + k = d.base + (k + 1)
    omega

lemma StickyDevice.run_frozen :
    ∀ (k m : Nat) (v : Option Int),
      StickyDevice.run natStep natReadings k ⟨m, 0, v⟩ = ⟨m + k, 0, v⟩ := by
  intro k
  induction k with
  | zero => intro m v; rfl
  | succ k ih =>
    intro m v
    show StickyDevice.run natStep natReadings k
        (StickyDevice.step natStep natReadings ⟨m, 0, v⟩) =
      ⟨m + (k + 1), 0, v⟩
    have hstep : StickyDevice.step natStep natReadings
        (⟨m, 0, v⟩ : StickyDevice Nat Int) = ⟨m + 1, 0, v⟩ := by
      unfold StickyDevice.step
      norm_num [natStep]
    rw [hstep, ih (m + 1) v]
    have e : m + 1 + k = m + (k + 1) := by omega
    rw [e]

/-! ### Claim theorems: C5, C6, C7, C8, C9 -/

/-- C5: a `StickyDevice` with `lifetime = 2` wrapping a device whose
successive readings are 1, 2, 3, 4 (`natReadings` over the tick counter):
the observed `get()` sequence is 1 at initialization, 2 after the first
step, 3 after the second step (the last refresh), and 3 forever after;
and every `step()` is forwarded to the wrapped device before the counter
logic (the base tick counter advances on every step, frozen or not). -/
theorem stickyDevice_observed_sequence :
    StickyDevice.init natReadings 0 2 =
        (⟨0, 2, some 1⟩ : StickyDevice Nat Int) ∧
      StickyDevice.get (⟨0, 2, some 1⟩ : StickyDevice Nat Int) = some 1 ∧
      StickyDevice.get
        (StickyDevice.run natStep natReadings 1 ⟨0, 2, some 1⟩) = some 2 ∧
      StickyDevice.get
        (StickyDevice.run natStep natReadings 2 ⟨0, 2, some 1⟩) = some 3 ∧
      StickyDevice.get
        (StickyDevice.run natStep natReadings 3 ⟨0, 2, some 1⟩) = some 3 ∧
      StickyDevice.get
        (StickyDevice.run natStep natReadings 4 ⟨0, 2, some 1⟩) = some 3 ∧
      (∀ k : Nat, StickyDevice.get
        (StickyDevice.run natStep natReadings (k + 2) ⟨0, 2, some 1⟩) =
          some 3) ∧
      ∀ k : Nat,
        (StickyDevice.run natStep natReadings k ⟨0, 2, some 1⟩).base = k := by
  have h2 : StickyDevice.run natStep natReadings 2
      (⟨0, 2, some 1⟩ : StickyDevice Nat Int) = ⟨2, 0, some 3⟩ := by decide
  refine ⟨rfl, rfl, by decide, by decide, by decide, by decide, ?_, ?_⟩
  · intro k
    rw [Nat.add_comm k 2, StickyDevice.run_add_sticky natStep natReadings 2 k, h2,
      StickyDevice.run_frozen k 2 (some 3)]
    rfl
  · intro k
    rw [StickyDevice.run_base_natStep k]
    show 0 + k = k
    omega

/-- C6: a `DoomedDevice` with `lifetime = 2` over any base device reports a
present value at ticks 0 and 1 (provided the base device's readings are
present there), and reports absent at tick 2 and at every later tick,
whatever the base device would produce: the counter reaches `0` and stays
there. -/
theorem doomedDevice_lifetime_two (stepB : σ → σ) (getB : σ → Option α)
    (b0 : σ) (h0 : (getB b0).isSome = true)
    (h1 : (getB (stepB b0)).isSome = true) :
    (DoomedDevice.get getB (⟨b0, 2⟩ : DoomedDevice σ)).isSome = true ∧
      (DoomedDevice.get getB
        (DoomedDevice.run stepB 1 ⟨b0, 2⟩)).isSome = true ∧
      ∀ k : Nat, DoomedDevice.get getB
        (DoomedDevice.run stepB (k + 2) ⟨b0, 2⟩) = none := by
  refine ⟨?_, ?_, ?_⟩
  · show (if (2 : Int) = 0 then none else getB b0).isSome = true
    rw [if_neg (by norm_num : ¬ (2 : Int) = 0)]
    exact h0
  · have hrun : DoomedDevice.run stepB 1 (⟨b0, 2⟩ : DoomedDevice σ) =
        ⟨stepB b0, 1⟩ := by
      show DoomedDevice.step stepB ⟨b0, 2⟩ = _
      unfold DoomedDevice.step
      norm_num
    rw [hrun]
    show (if (1 : Int) = 0 then none else getB (stepB b0)).isSome = true
    rw [if_neg (by norm_num : ¬ (1 : Int) = 0)]
    exact h1
  · intro k
    have h2 : DoomedDevice.run stepB 2 (⟨b0, 2⟩ : DoomedDevice σ) =
        ⟨stepB (stepB b0), 0⟩ := by
      show DoomedDevice.step stepB (DoomedDevice.step stepB ⟨b0, 2⟩) = _
      unfold DoomedDevice.step
      norm_num
    rw [Nat.add_comm k 2, DoomedDevice.run_add_doomed stepB 2 k, h2]
    unfold DoomedDevice.get
    rw [if_pos (DoomedDevice.run_tr_zero stepB k _ rfl)]

/-- Witness for C6: the counter base device with readings `some (k + 1)`;
present at ticks 0 and 1, absent at tick 5. -/
theorem doomedDevice_lifetime_two_witness :
    (DoomedDevice.get natReadings (⟨0, 2⟩ : DoomedDevice Nat)).isSome =
        true ∧
      DoomedDevice.get natReadings
        (DoomedDevice.run natStep 5 ⟨0, 2⟩) = none := by
  have h := doomedDevice_lifetime_two natStep natReadings 0
    (by decide) (by decide)
  exact ⟨h.1, h.2.2 3⟩

/-- C7: for every `BasicDevice` with `p_skip = 1.0`, after every nonempty
sequence of `step()` calls — for every outcome of each step's uniform draw
in `[0, 1)` and every measurement sample — `get()` returns absent. -/
theorem basicDevice_pskip_one_absent (d : BasicDevice α)
    (draws : List (ℚ × α × α)) (hp : d.p_skip = 1) (hne : draws ≠ [])
    (hr : ∀ x ∈ draws, 0 ≤ x.1 ∧ x.1 < 1) :
    (d.run draws).get = none := by
  induction draws generalizing d with
  | nil => exact absurd rfl hne
  | cons x rest ih =>
    obtain ⟨r, m1, m2⟩ := x
    have hx := hr (r, m1, m2) (List.mem_cons_self _ _)
    cases rest with
    | nil =>
      show (d.step r m1 m2).get = none
      exact BasicDevice.step_skip_value d r m1 m2 hp hx.2
    | cons y rest2 =>
      show ((d.step r m1 m2).run (y :: rest2)).get = none
      apply ih
      · rw [BasicDevice.step_p_skip]
        exact hp
      · exact List.cons_ne_nil y rest2
      · intro z hz
        exact hr z (List.mem_cons_of_mem _ hz)

/-- Witness for C7: a device with `p_skip = 1` stepped twice with draws
`1/2` and `0`. -/
theorem basicDevice_pskip_one_absent_witness :
    ((BasicDevice.init "s" (5 : Int) 1 "m" []).run
      [(1/2, 7, 7), (0, 9, 9)]).get = none := by
  apply basicDevice_pskip_one_absent
  · rfl
  · exact List.cons_ne_nil _ _
  · intro x hx
    simp only [List.mem_cons, List.not_mem_nil, or_false] at hx
    rcases hx with rfl | rfl <;> norm_num

/-- C9: for every `BasicDevice`, whatever `p_skip` is (including `1`),
`get()` before the first `step()` returns the fresh sample the constructor
took from the measurement — the initial reading is present, never absent. -/
theorem basicDevice_init_present (name : String) (m0 : α) (p : ℚ)
    (im : String) (tags : List (String × String)) :
    (BasicDevice.init name m0 p im tags).get = some m0 ∧
      ((BasicDevice.init name m0 p im tags).get).isSome = true :=
  ⟨rfl, rfl⟩

/-- C8, counterexample to the claim as stated: for a device whose reading is
absent this tick, the live sink does skip it (`write_device` forwards
nothing), but the batch generate-to-file mode still emits a record for it,
so "nothing is forwarded ... equally in the batch mode" is false. -/
theorem env_batch_forwards_absent_cex :
    write_device
        (⟨none, "m", [("room_id", "r1"), ("sensor_id", "s1")]⟩ :
          DeviceReading Int) = none ∧
      generate_tick
        [(⟨none, "m", [("room_id", "r1"), ("sensor_id", "s1")]⟩ :
          DeviceReading Int)] ≠ [] := by
  constructor
  · rfl
  · decide

/-- C8, amended: in the live sink mode a device with an absent reading is
skipped (its point count equals the number of present readings), while the
batch generate-to-file mode emits one record per registered device each
tick regardless of absence. -/
theorem env_absent_forwarding :
    (∀ d : DeviceReading α, d.value = none → write_device d = none) ∧
      (∀ ds : List (DeviceReading α),
        (sink_tick ds).length =
          (ds.filter fun d => d.value.isSome).length) ∧
      ∀ ds : List (DeviceReading α),
        (generate_tick ds).length = ds.length := by
  refine ⟨?_, ?_, ?_⟩
  · intro d h
    unfold write_device
    rw [h]
  · intro ds
    induction ds with
    | nil => rfl
    | cons d rest ih =>
      cases hv : d.value with
      | none =>
        have hw : write_device d = none := by
          unfold write_device
          rw [hv]
        simp only [sink_tick, List.filterMap_cons, hw, List.filter_cons,
          hv, Option.isSome_none, Bool.false_eq_true, if_false]
        exact ih
      | some v =>
        have hw : write_device d = some (d.influx_meas, v, d.tags) := by
          unfold write_device
          rw [hv]
        simp only [sink_tick, List.filterMap_cons, hw, List.filter_cons,
          hv, Option.isSome_some, if_true, List.length_cons]
        exact congrArg (· + 1) ih
  · intro ds
    simp [generate_tick]

/-- Witness for the amended C8: a single absent device yields no live point
and exactly one batch record. -/
theorem env_absent_forwarding_witness :
    write_device (⟨none, "m", [("room_id", "r1")]⟩ : DeviceReading Int) =
        none ∧
      (generate_tick
        [(⟨none, "m", [("room_id", "r1")]⟩ : DeviceReading Int)]).length =
        1 :=
  ⟨(@env_absent_forwarding Int).1 _ rfl, (@env_absent_forwarding Int).2.2 _⟩

end Lab04
